import Mathlib

/-!
Verification of the libyee smart-bulb client library.

Shallow embedding of the Rust sources (src/connection.rs, src/bulb.rs,
src/search.rs, src/method.rs, src/power.rs, src/rgb.rs, src/lightmode.rs).
Text is embedded as `List Char` (the character sequence of the Rust
`String`/`str` values; all protocol text is ASCII, so characters and bytes
coincide). Rust `Duration` values are embedded as nanosecond counts
(`Nat`), matching the nanosecond precision of `std::time::Duration`.
Machine integers are embedded as `Nat`/`Int`, with explicit truncation
(`% 2 ^ 32`) exactly where the source performs an `as u32` cast.
-/

namespace Libyee

/-- The character sequence of a string literal. -/
def chars (s : String) : List Char := s.data

/-! ## Decimal rendering of integers

Embeds the canonical decimal rendering produced by the Rust
`to_string` methods on integer types (no leading zeros, a leading
minus sign for negative values, "0" for zero). -/

/-- The character of a single decimal digit (argument taken modulo
intent: callers only pass values below 10; values of 9 and above map
to the digit 9). -/
def digitChar (d : Nat) : Char :=
  match d with
  | 0 => '0'
  | 1 => '1'
  | 2 => '2'
  | 3 => '3'
  | 4 => '4'
  | 5 => '5'
  | 6 => '6'
  | 7 => '7'
  | 8 => '8'
  | _ => '9'

/-- Numeric value of a decimal digit character. -/
def digitVal (c : Char) : Nat := c.toNat - 48

/-- Whether a character is a decimal digit. -/
def isDigit (c : Char) : Bool := decide ('0' ≤ c) && decide (c ≤ '9')

/-- Little-endian list of decimal digit characters of a natural number
(empty for zero). -/
def natDigitsRev (n : Nat) : List Char :=
  if h : n = 0 then [] else digitChar (n % 10) :: natDigitsRev (n / 10)
decreasing_by exact Nat.div_lt_self (Nat.pos_of_ne_zero h) (by norm_num)

/-- Canonical decimal rendering of a natural number, as produced by the
Rust `to_string` of the unsigned integer types. -/
def natToStr (n : Nat) : List Char :=
  if n = 0 then ['0'] else (natDigitsRev n).reverse

/-- Canonical decimal rendering of an integer, as produced by the Rust
`to_string` of the signed integer types (`i16::to_string` in
`create_message`). -/
def intToStr (i : Int) : List Char :=
  if i < 0 then '-' :: natToStr i.natAbs else natToStr i.natAbs

/-! ## src/rgb.rs -/

/-- The `RGB` struct: three `u8` components, embedded as `Fin 256`. -/
structure RGB where
  r : Fin 256
  g : Fin 256
  b : Fin 256
deriving DecidableEq

/-- The `From<u32> for RGB` conversion: each component is the
corresponding byte of the 32-bit value (`(int >> k) & 0xFF`; the final
`as u8` cast is the identity because the mask already bounds the value
below 256). -/
def rgb_from_u32 (int : Nat) : RGB :=
  { r := ⟨(int >>> 16) &&& 0xFF, Nat.lt_succ_of_le (Nat.and_le_right)⟩
    g := ⟨(int >>> 8) &&& 0xFF, Nat.lt_succ_of_le (Nat.and_le_right)⟩
    b := ⟨(int >>> 0) &&& 0xFF, Nat.lt_succ_of_le (Nat.and_le_right)⟩ }

/-- The `From<RGB> for u32` conversion:
`65536 * r + 256 * g + b` (cannot overflow a `u32`). -/
def u32_from_rgb (rgb : RGB) : Nat :=
  65536 * rgb.r.val + 256 * rgb.g.val + rgb.b.val

lemma and_255_eq_mod (x : Nat) : x &&& 0xFF = x % 256 := by
  have h := Nat.and_pow_two_sub_one_eq_mod x 8
  norm_num at h
  exact h

lemma rgb_from_u32_eq (int : Nat) :
    rgb_from_u32 int =
      { r := ⟨int / 65536 % 256, Nat.mod_lt _ (by norm_num)⟩
        g := ⟨int / 256 % 256, Nat.mod_lt _ (by norm_num)⟩
        b := ⟨int % 256, Nat.mod_lt _ (by norm_num)⟩ } := by
  unfold rgb_from_u32
  congr 1 <;> ext <;>
    simp [and_255_eq_mod, Nat.shiftRight_eq_div_pow]

/-- C10: the RGB and u32 conversions are mutually inverse on their
valid ranges: any `u32` value at most `0xFFFFFF` survives a round trip
through `RGB`, and any `RGB` struct survives a round trip through
`u32`. -/
theorem rgb_u32_roundtrip :
    (∀ v : Nat, v ≤ 0xFFFFFF → u32_from_rgb (rgb_from_u32 v) = v) ∧
    (∀ c : RGB, rgb_from_u32 (u32_from_rgb c) = c) := by
  constructor
  · intro v hv
    rw [rgb_from_u32_eq]
    unfold u32_from_rgb
    simp only
    omega
  · intro c
    obtain ⟨⟨r, hr⟩, ⟨g, hg⟩, ⟨b, hb⟩⟩ := c
    rw [rgb_from_u32_eq]
    unfold u32_from_rgb
    simp only [Fin.mk.injEq, RGB.mk.injEq]
    refine ⟨?_, ?_, ?_⟩ <;> omega

/-- Witness for C10 at a concrete input (the value used by the
repository test `rgb_u32_test` is `0xFFFFFF`; here `0xABCDEF`). -/
theorem rgb_u32_roundtrip_witness :
    u32_from_rgb (rgb_from_u32 11259375) = 11259375 :=
  rgb_u32_roundtrip.1 11259375 (by norm_num)

/-! ## src/method.rs -/

/-- The `Method` enum: every control method of the protocol, in
declaration order. -/
inductive Method where
  | GetProp
  | SetPower
  | CronAdd
  | CronGet
  | CronDel
  | SetRgb
  | SetHsv
  | SetCtAbx
  | StartCf
  | StopCf
  | SetScene
  | SetDefault
  | SetBright
  | SetAdjust
  | Toggle
  | AdjustBright
  | AdjustCt
  | AdjustColor
  | BgSetRgb
  | BgSetHsv
  | BgSetCtAbx
  | BgStartCf
  | BgStopCf
  | BgSetScene
  | BgSetDefault
  | BgSetBright
  | BgSetAdjust
  | BgToggle
  | BgAdjustBright
  | BgAdjustCt
  | BgAdjustColor
  | BgSetPower
  | SetMusic
  | SetName
  | DevToggle
deriving DecidableEq

/-- The `From<&Method> for &str` wire-name table. -/
def Method.str (val : Method) : List Char :=
  match val with
  | .GetProp => chars "get_prop"
  | .SetDefault => chars "set_default"
  | .SetPower => chars "set_power"
  | .Toggle => chars "toggle"
  | .SetBright => chars "set_bright"
  | .StartCf => chars "start_cf"
  | .StopCf => chars "stop_cf"
  | .SetScene => chars "set_scene"
  | .CronAdd => chars "cron_add"
  | .CronGet => chars "cron_get"
  | .CronDel => chars "cron_del"
  | .SetCtAbx => chars "set_ct_abx"
  | .SetRgb => chars "set_rgb"
  | .SetHsv => chars "set_hsv"
  | .SetAdjust => chars "set_adjust"
  | .SetMusic => chars "set_music"
  | .SetName => chars "set_name"
  | .AdjustBright => chars "adjust_bright"
  | .AdjustCt => chars "adjust_ct"
  | .AdjustColor => chars "adjust_color"
  | .BgSetRgb => chars "bg_set_rgb"
  | .BgSetHsv => chars "bg_set_hsv"
  | .BgSetCtAbx => chars "bg_set_ct_abx"
  | .BgStartCf => chars "bg_start_cf"
  | .BgStopCf => chars "bg_stop_cf"
  | .BgSetScene => chars "bg_set_scene"
  | .BgSetDefault => chars "bg_set_default"
  | .BgSetBright => chars "bg_set_bright"
  | .BgSetAdjust => chars "bg_set_adjust"
  | .BgToggle => chars "bg_toggle"
  | .BgAdjustBright => chars "bg_adjust_bright"
  | .BgAdjustCt => chars "bg_adjust_ct"
  | .BgAdjustColor => chars "bg_adjust_color"
  | .DevToggle => chars "dev_toggle"
  | .BgSetPower => chars "bg_set_power"

/-- Every `Method`, in declaration order (the `IntoEnumIterator`
derivation of the source). -/
def Method.all : List Method :=
  [.GetProp, .SetPower, .CronAdd, .CronGet, .CronDel, .SetRgb, .SetHsv,
   .SetCtAbx, .StartCf, .StopCf, .SetScene, .SetDefault, .SetBright,
   .SetAdjust, .Toggle, .AdjustBright, .AdjustCt, .AdjustColor,
   .BgSetRgb, .BgSetHsv, .BgSetCtAbx, .BgStartCf, .BgStopCf,
   .BgSetScene, .BgSetDefault, .BgSetBright, .BgSetAdjust, .BgToggle,
   .BgAdjustBright, .BgAdjustCt, .BgAdjustColor, .BgSetPower,
   .SetMusic, .SetName, .DevToggle]

/-- The `TryFrom<&str> for Method` lookup, as an `Option` (the
`Method::parse` used by `Bulb::parse` over the `support` field): the
first enum variant whose wire name equals the given string. -/
def Method.parse (value : List Char) : Option Method :=
  Method.all.find? (fun m => m.str == value)

/-! ## src/connection.rs: the message codec -/

/-- The `MethodArg` enum of `connection.rs`: a call argument is either
a string or a 32-bit integer. -/
inductive MethodArg where
  | String (s : List Char)
  | Int (i : Int)
deriving DecidableEq

/-- `MethodArg::to_str`: strings are wrapped in double quotes,
integers are rendered in decimal. -/
def MethodArg.to_str (a : MethodArg) : List Char :=
  match a with
  | .String s => '"' :: (s ++ ['"'])
  | .Int i => intToStr i

/-- The `Vec::join` of Rust on string lists: elements separated by the
separator, no trailing separator. -/
def joinList (sep : List Char) : List (List Char) → List Char
  | [] => []
  | [x] => x
  | x :: y :: xs => x ++ sep ++ joinList sep (y :: xs)

/-- `create_message` of `connection.rs`: the request line
(`strs.join("")` concatenates the seven fragments; arguments are
joined with a comma and a space). -/
def create_message (id : Int) (method : Method) (args : List MethodArg) :
    List Char :=
  chars "\x7b\"id\":" ++ (intToStr id ++
    (chars ",\"method\":\"" ++ (method.str ++
      (chars "\",\"params\":[" ++
        (joinList (chars ", ") (args.map MethodArg.to_str) ++
          chars "]\x7d\r\n")))))

/-! ## C4: the exact wire format of encoded requests -/

/-- Modelled from the spec: the rendering of one request argument in
the §4.1 wire grammar — "a quoted string or a bare integer". -/
def specArgText (a : MethodArg) : List Char :=
  match a with
  | .String s => chars "\"" ++ s ++ chars "\""
  | .Int i => intToStr i

/-- Modelled from the spec: the §4.1 wire request line
`\x7b"id":<int16>,"method":"<name>","params":[<arg>, ...]\x7d` followed by
CRLF, with the arguments separated by a comma and a space, and no
other bytes before or after. -/
def specRequestLine (id : Int) (method : Method) (args : List MethodArg) :
    List Char :=
  chars "\x7b\"id\":" ++ (intToStr id ++
    (chars ",\"method\":\"" ++ (method.str ++
      (chars "\",\"params\":[" ++
        (List.intercalate (chars ", ") (args.map specArgText) ++
          (chars "]\x7d" ++ chars "\r\n"))))))

lemma joinList_eq_intercalate (sep : List Char) (l : List (List Char)) :
    joinList sep l = List.intercalate sep l := by
  induction l with
  | nil => simp [joinList, List.intercalate]
  | cons x xs ih =>
    cases xs with
    | nil => simp [joinList, List.intercalate]
    | cons y ys =>
      rw [joinList, ih]
      simp [List.intercalate, List.intersperse]

lemma to_str_eq_specArgText (a : MethodArg) :
    MethodArg.to_str a = specArgText a := by
  cases a <;> simp [MethodArg.to_str, specArgText, chars]

/-- C4: for every correlation id, method and argument list, the
encoded request produced by `create_message` is exactly the byte
sequence prescribed by the spec wire grammar — the JSON object with
the id, the quoted method name and the rendered parameter list,
terminated by CRLF, with no other bytes before or after. -/
theorem create_message_exact_format
    (id : Int) (method : Method) (args : List MethodArg) :
    create_message id method args = specRequestLine id method args := by
  unfold create_message specRequestLine
  rw [joinList_eq_intercalate]
  have hmap : args.map MethodArg.to_str = args.map specArgText :=
    List.map_congr_left (fun a _ => to_str_eq_specArgText a)
  rw [hmap]
  rfl

/-! ## Decimal parsing (for the request-half decoder of C3) -/

/-- Greedily consume decimal digits, accumulating their value. -/
def parseDigits : List Char → Nat → Nat × List Char
  | [], acc => (acc, [])
  | c :: rest, acc =>
    if isDigit c then parseDigits rest (acc * 10 + digitVal c)
    else (acc, c :: rest)

/-- Parse a nonempty run of decimal digits at the head of the input. -/
def parseNatTok : List Char → Option (Nat × List Char)
  | [] => none
  | c :: rest =>
    if isDigit c then some (parseDigits rest (digitVal c)) else none

/-- Parse an optionally negated run of decimal digits. -/
def parseIntTok : List Char → Option (Int × List Char)
  | [] => none
  | c :: rest =>
    if c = '-' then (parseNatTok rest).map (fun p => (-(p.1 : Int), p.2))
    else (parseNatTok (c :: rest)).map (fun p => ((p.1 : Int), p.2))

/-- The input does not start with a decimal digit. -/
def headNotDigit : List Char → Prop
  | [] => True
  | c :: _ => isDigit c = false

lemma digitVal_digitChar {d : Nat} (h : d < 10) :
    digitVal (digitChar d) = d := by
  interval_cases d <;> decide

lemma isDigit_digitChar {d : Nat} (h : d < 10) :
    isDigit (digitChar d) = true := by
  interval_cases d <;> decide

lemma isDigit_ne_minus {c : Char} (h : isDigit c = true) : c ≠ '-' := by
  intro hc
  subst hc
  exact absurd h (by decide)

lemma natDigitsRev_all_digits (n : Nat) :
    ∀ c ∈ natDigitsRev n, isDigit c = true := by
  induction n using Nat.strong_induction_on with
  | _ n ih =>
    intro c hc
    rw [natDigitsRev] at hc
    by_cases h : n = 0
    · simp [h] at hc
    · simp only [h, dite_false, List.mem_cons] at hc
      rcases hc with hc | hc
      · subst hc
        exact isDigit_digitChar (Nat.mod_lt _ (by norm_num))
      · exact ih (n / 10) (Nat.div_lt_self (Nat.pos_of_ne_zero h) (by norm_num)) c hc

lemma natToStr_all_digits (n : Nat) :
    ∀ c ∈ natToStr n, isDigit c = true := by
  intro c hc
  unfold natToStr at hc
  by_cases h : n = 0
  · simp [h] at hc
    subst hc
    decide
  · simp only [h, if_false, List.mem_reverse] at hc
    exact natDigitsRev_all_digits n c hc

lemma natToStr_ne_nil (n : Nat) : natToStr n ≠ [] := by
  unfold natToStr
  by_cases h : n = 0
  · simp [h]
  · rw [natDigitsRev]
    simp [h]

/-- The digit-accumulation step used by `parseDigits`. -/
def accStep (a : Nat) (c : Char) : Nat := a * 10 + digitVal c

lemma parseDigits_stop (rest : List Char) (acc : Nat)
    (h : headNotDigit rest) : parseDigits rest acc = (acc, rest) := by
  cases rest with
  | nil => rfl
  | cons c cs =>
    unfold headNotDigit at h
    simp [parseDigits, h]

lemma parseDigits_append (ds rest : List Char) (acc : Nat)
    (hds : ∀ c ∈ ds, isDigit c = true) (hrest : headNotDigit rest) :
    parseDigits (ds ++ rest) acc = (ds.foldl accStep acc, rest) := by
  induction ds generalizing acc with
  | nil => simpa using parseDigits_stop rest acc hrest
  | cons d ds ih =>
    have hd : isDigit d = true := hds d (List.mem_cons_self d ds)
    simp only [List.cons_append, parseDigits, hd, if_true, List.foldl_cons]
    exact ih (acc * 10 + digitVal d) (fun c hc => hds c (List.mem_cons_of_mem d hc))

lemma foldl_natDigitsRev (n : Nat) :
    ∀ acc : Nat, (natDigitsRev n).reverse.foldl accStep acc =
      acc * 10 ^ (natDigitsRev n).length + n := by
  induction n using Nat.strong_induction_on with
  | _ n ih =>
    intro acc
    by_cases h : n = 0
    · subst h
      rw [natDigitsRev]
      simp
    · rw [natDigitsRev]
      simp only [h, dite_false, List.reverse_cons, List.foldl_append,
        List.foldl_cons, List.foldl_nil, List.length_cons]
      rw [ih (n / 10) (Nat.div_lt_self (Nat.pos_of_ne_zero h) (by norm_num)) acc]
      unfold accStep
      rw [digitVal_digitChar (Nat.mod_lt _ (by norm_num))]
      rw [pow_succ]
      have := Nat.div_add_mod n 10
      ring_nf
      omega

lemma foldl_natToStr (n : Nat) : (natToStr n).foldl accStep 0 = n := by
  unfold natToStr
  by_cases h : n = 0
  · simp [h]
    decide
  · simp only [h, if_false]
    rw [foldl_natDigitsRev n 0]
    simp

lemma parseNatTok_natToStr (n : Nat) (rest : List Char)
    (hrest : headNotDigit rest) :
    parseNatTok (natToStr n ++ rest) = some (n, rest) := by
  rcases hs : natToStr n with _ | ⟨c, cs⟩
  · exact absurd hs (natToStr_ne_nil n)
  · have hc : isDigit c = true := by
      have := natToStr_all_digits n c
      rw [hs] at this
      exact this (List.mem_cons_self c cs)
    have hcs : ∀ x ∈ cs, isDigit x = true := by
      intro x hx
      have := natToStr_all_digits n x
      rw [hs] at this
      exact this (List.mem_cons_of_mem c hx)
    simp only [List.cons_append, parseNatTok, hc, if_true]
    rw [parseDigits_append cs rest (digitVal c) hcs hrest]
    have hval : cs.foldl accStep (digitVal c) = n := by
      have := foldl_natToStr n
      rw [hs] at this
      simpa [accStep] using this
    rw [hval]

lemma parseIntTok_intToStr (i : Int) (rest : List Char)
    (hrest : headNotDigit rest) :
    parseIntTok (intToStr i ++ rest) = some (i, rest) := by
  unfold intToStr
  by_cases h : i < 0
  · simp only [h, if_true, List.cons_append, parseIntTok, if_pos rfl]
    rw [parseNatTok_natToStr i.natAbs rest hrest]
    simp only [Option.map_some']
    rw [show -(i.natAbs : Int) = i by omega]
  · rcases hs : natToStr i.natAbs with _ | ⟨c, cs⟩
    · exact absurd hs (natToStr_ne_nil i.natAbs)
    · have hc : isDigit c = true := by
        have := natToStr_all_digits i.natAbs c
        rw [hs] at this
        exact this (List.mem_cons_self c cs)
      simp only [h, if_false, hs, List.cons_append, parseIntTok,
        if_neg (isDigit_ne_minus hc)]
      have hp : parseNatTok (natToStr i.natAbs ++ rest) = some (i.natAbs, rest) :=
        parseNatTok_natToStr i.natAbs rest hrest
      rw [hs] at hp
      rw [List.cons_append] at hp
      rw [hp]
      simp only [Option.map_some']
      rw [show (i.natAbs : Int) = i by omega]

/-! ## C3: the request wire round trip -/

/-- Drop an expected literal prefix. -/
def stripPre (pre s : List Char) : Option (List Char) :=
  if pre.isPrefixOf s then some (s.drop pre.length) else none

/-- Read the characters preceding the next double quote. -/
def takeUntilQuote : List Char → Option (List Char × List Char)
  | [] => none
  | c :: rest =>
    if c = '"' then some ([], rest)
    else (takeUntilQuote rest).map (fun p => (c :: p.1, p.2))

/-- Modelled from the spec: the decoder for the request half of the
§4.1 wire format (the repository contains no request decoder — its
test double only compares raw strings). It reads the literal id
prefix, the decimal correlation id, the literal method prefix and the
quoted method name. -/
def decodeRequest (s : List Char) : Option (Int × List Char) :=
  (stripPre (chars "\x7b\"id\":") s).bind fun s1 =>
    (parseIntTok s1).bind fun p =>
      (stripPre (chars ",\"method\":\"") p.2).bind fun s2 =>
        (takeUntilQuote s2).map fun q => (p.1, q.1)

lemma stripPre_append (pre rest : List Char) :
    stripPre pre (pre ++ rest) = some rest := by
  have hp : pre.isPrefixOf (pre ++ rest) = true := by
    rw [List.isPrefixOf_iff_prefix]
    exact List.prefix_append pre rest
  simp [stripPre, hp]

lemma takeUntilQuote_append (name rest : List Char) (h : '"' ∉ name) :
    takeUntilQuote (name ++ '"' :: rest) = some (name, rest) := by
  induction name with
  | nil => simp [takeUntilQuote]
  | cons c cs ih =>
    have hc : c ≠ '"' := fun hc => h (hc ▸ List.mem_cons_self c cs)
    simp only [List.cons_append, takeUntilQuote, if_neg hc, List.append_eq]
    rw [ih (fun hm => h (List.mem_cons_of_mem c hm))]
    rfl

lemma quote_not_mem_method_str (m : Method) : '"' ∉ Method.str m := by
  cases m <;> decide

/-- C3: for every i16 correlation id, every method in the capability
set and every argument list, decoding the bytes produced by
`create_message` reproduces the id and the method name exactly. -/
theorem request_roundtrip (support : List Method) (id : Int)
    (method : Method) (args : List MethodArg)
    (hmem : method ∈ support) (hlo : -32768 ≤ id) (hhi : id < 32768) :
    decodeRequest (create_message id method args) =
      some (id, Method.str method) := by
  unfold decodeRequest
  have h1 : stripPre (chars "\x7b\"id\":") (create_message id method args) =
      some (intToStr id ++
        (chars ",\"method\":\"" ++
          (Method.str method ++
            ('"' :: (chars ",\"params\":[" ++
              (joinList (chars ", ") (args.map MethodArg.to_str) ++
                chars "]\x7d\r\n")))))) :=
    stripPre_append _ _
  rw [h1, Option.some_bind]
  have hnd : headNotDigit
      (chars ",\"method\":\"" ++
        (Method.str method ++
          ('"' :: (chars ",\"params\":[" ++
            (joinList (chars ", ") (args.map MethodArg.to_str) ++
              chars "]\x7d\r\n"))))) := by
    show isDigit ',' = false
    decide
  rw [parseIntTok_intToStr id _ hnd, Option.some_bind]
  rw [stripPre_append, Option.some_bind]
  rw [takeUntilQuote_append _ _ (quote_not_mem_method_str method)]
  rfl

/-- Witness for C3 at a concrete input: id 1, method `toggle`, no
arguments. -/
theorem request_roundtrip_witness :
    decodeRequest (create_message 1 Method.Toggle []) =
      some (1, chars "toggle") :=
  request_roundtrip [Method.Toggle] 1 Method.Toggle []
    (by decide) (by decide) (by decide)

/-! ## src/power.rs and src/lightmode.rs -/

/-- The `Power` enum. -/
inductive Power where
  | On
  | Off
deriving DecidableEq

/-- The `TryFrom<&String> for Power` lookup, as an `Option` (the
`Power::parse` used by `Bulb::parse`). -/
def Power.parse (value : List Char) : Option Power :=
  if value = chars "on" then some .On
  else if value = chars "off" then some .Off
  else none

/-- The `HSV` struct of `lightmode.rs` (hue 0..359, saturation
0..100; `u16` and `u8` in the source, embedded as `Nat`). -/
structure HSV where
  hue : Nat
  saturation : Nat
deriving DecidableEq

/-- The `LightMode` enum of `lightmode.rs`. -/
inductive LightMode where
  | Color (rgb : RGB)
  | ColorTemperature (ct : Nat)
  | Hsv (hsv : HSV)
deriving DecidableEq

/-! ## src/bulb.rs: the device descriptor -/

/-- The `Bulb` struct: the parsed identity, capability and attribute
snapshot of one device. The `support` HashSet is embedded as a list
whose membership relation models set containment. -/
structure Bulb where
  id : List Char
  model : List Char
  fw_ver : List Char
  support : List Method
  power : Power
  bright : Nat
  color_mode : LightMode
  name : List Char
  ip_address : List Char
deriving DecidableEq

/-! ## The response shapes of src/connection.rs -/

/-- The `StringVecResponse` struct: a success response with an `i16`
id and a string-array payload. -/
structure StringVecResponse where
  id : Int
  result : List (List Char)
deriving DecidableEq

/-- The `BulbErrorResponse` struct: integer `code` and string
`message`. -/
structure BulbErrorResponse where
  code : Int
  message : List Char
deriving DecidableEq

/-- The `ErrorResponse` struct: an `i16` id together with the nested
error record. -/
structure ErrorResponse where
  id : Int
  error : BulbErrorResponse
deriving DecidableEq

/-- Alias used to name the payload of the `ErrorResponse` variant of
`MethodCallError` inside that declaration. -/
abbrev ErrorResponseData := ErrorResponse

/-- The `MethodCallError` enum (the `IOError` payload, an
`std::io::Error`, carries no information relevant to control flow and
is dropped). -/
inductive MethodCallError where
  | BadRequest
  | UnsupportedMethod
  | IOError
  | ParseError
  | SynchronizationError
  | ErrorResponse (e : ErrorResponseData)
deriving DecidableEq

/-! ## The response decoder

`call_method` decodes the read buffer with `serde_json`, an external
crate. Modelled from the spec: the strict §4.1 response shapes — a
JSON object with an `i16` `id` and either a `result` string array or
an `error` object with integer `code` and string `message`, with
optional whitespace between tokens and nothing but whitespace after
the closing brace. (String escapes never occur in this protocol's
responses and are not modelled.) -/

/-- ASCII whitespace. -/
def isWs (c : Char) : Bool := c = ' ' || c = '\t' || c = '\n' || c = '\r'

/-- Skip leading whitespace. -/
def skipWs (s : List Char) : List Char := s.dropWhile isWs

/-- Expect a literal token after optional whitespace. -/
def expectTok (tok s : List Char) : Option (List Char) :=
  stripPre tok (skipWs s)

/-- Parse a JSON integer after optional whitespace. -/
def parseJsonInt (s : List Char) : Option (Int × List Char) :=
  parseIntTok (skipWs s)

/-- Parse a JSON string after optional whitespace. -/
def parseJsonStr (s : List Char) : Option (List Char × List Char) :=
  match skipWs s with
  | c :: rest => if c = '"' then takeUntilQuote rest else none
  | [] => none

/-- Parse the remainder of a string array after its first element:
either a closing bracket or a comma followed by a string, with fuel
bounding the recursion by the input length. -/
def parseStrArrayRest :
    Nat → List Char → List (List Char) → Option (List (List Char) × List Char)
  | 0, _, _ => none
  | n + 1, s, acc =>
    match skipWs s with
    | c :: rest =>
      if c = ']' then some (acc.reverse, rest)
      else if c = ',' then
        (parseJsonStr rest).bind fun p => parseStrArrayRest n p.2 (p.1 :: acc)
      else none
    | [] => none

/-- Parse a JSON array of strings. -/
def parseStrArray (s : List Char) : Option (List (List Char) × List Char) :=
  match skipWs s with
  | c :: rest =>
    if c = '[' then
      match skipWs rest with
      | d :: rest2 =>
        if d = ']' then some ([], rest2)
        else
          (parseJsonStr rest).bind fun p =>
            parseStrArrayRest (p.2.length + 1) p.2 [p.1]
      | [] => none
    else none
  | [] => none

/-- Modelled from the spec: `serde_json::from_str::<StringVecResponse>`
on the strict success shape, with the `i16` range check on `id`. -/
def parseStringVecResponse (s : List Char) : Option StringVecResponse :=
  (expectTok (chars "\x7b") s).bind fun s1 =>
  (expectTok (chars "\"id\"") s1).bind fun s2 =>
  (expectTok (chars ":") s2).bind fun s3 =>
  (parseJsonInt s3).bind fun pid =>
  if pid.1 < -32768 ∨ 32768 ≤ pid.1 then none else
  (expectTok (chars ",") pid.2).bind fun s4 =>
  (expectTok (chars "\"result\"") s4).bind fun s5 =>
  (expectTok (chars ":") s5).bind fun s6 =>
  (parseStrArray s6).bind fun pr =>
  (expectTok (chars "\x7d") pr.2).bind fun s7 =>
  if (skipWs s7).isEmpty then some ⟨pid.1, pr.1⟩ else none

/-- The nested error object of the error shape:
`\x7b"code":<i32>,"message":"..."\x7d`, with the `i32` range check on
`code` performed by the serde integer deserializer. -/
def parseErrorBody (s : List Char) : Option (BulbErrorResponse × List Char) :=
  (expectTok (chars "\x7b") s).bind fun (s7 : List Char) =>
  (expectTok (chars "\"code\"") s7).bind fun (s8 : List Char) =>
  (expectTok (chars ":") s8).bind fun (s9 : List Char) =>
  (parseJsonInt s9).bind fun (pc : Int × List Char) =>
  if pc.1 < -2147483648 ∨ 2147483648 ≤ pc.1 then none else
  (expectTok (chars ",") pc.2).bind fun (s10 : List Char) =>
  (expectTok (chars "\"message\"") s10).bind fun (s11 : List Char) =>
  (expectTok (chars ":") s11).bind fun (s12 : List Char) =>
  (parseJsonStr s12).bind fun (pm : List Char × List Char) =>
  (expectTok (chars "\x7d") pm.2).map fun (s13 : List Char) =>
  (⟨pc.1, pm.1⟩, s13)

/-- Modelled from the spec: `serde_json::from_str::<ErrorResponse>` on
the strict error shape, with the `i16` range check on `id`. -/
def parseErrorResponse (s : List Char) : Option ErrorResponse :=
  (expectTok (chars "\x7b") s).bind fun (s1 : List Char) =>
  (expectTok (chars "\"id\"") s1).bind fun (s2 : List Char) =>
  (expectTok (chars ":") s2).bind fun (s3 : List Char) =>
  (parseJsonInt s3).bind fun (pid : Int × List Char) =>
  if pid.1 < -32768 ∨ 32768 ≤ pid.1 then none else
  (expectTok (chars ",") pid.2).bind fun (s4 : List Char) =>
  (expectTok (chars "\"error\"") s4).bind fun (s5 : List Char) =>
  (expectTok (chars ":") s5).bind fun (s6 : List Char) =>
  (parseErrorBody s6).bind fun (pe : BulbErrorResponse × List Char) =>
  (expectTok (chars "\x7d") pe.2).bind fun (s14 : List Char) =>
  if (skipWs s14).isEmpty then some ⟨pid.1, pe.1⟩ else none

/-- Remove a trailing run of characters satisfying the predicate (the
Rust `trim_end_matches` and `trim_end`). -/
def dropTrailing (p : Char → Bool) (l : List Char) : List Char :=
  (l.reverse.dropWhile p).reverse

/-- The buffer cleanup of `call_method`:
`trim_end_matches(char::from(0)).trim_end()` — strip the NUL padding
of the fixed 2048-byte read buffer, then trailing whitespace. -/
def trimResponse (buf : List Char) : List Char :=
  dropTrailing isWs (dropTrailing (fun c => c = Char.ofNat 0) buf)

/-! ## src/connection.rs: the call dispatcher -/

/-- Decidable equality for `Except`, needed to evaluate concrete call
outcomes. -/
instance {ε α : Type} [DecidableEq ε] [DecidableEq α] :
    DecidableEq (Except ε α) := fun a b =>
  match a, b with
  | .error x, .error y =>
    if h : x = y then .isTrue (h ▸ rfl)
    else .isFalse (fun hc => h (by injection hc))
  | .ok x, .ok y =>
    if h : x = y then .isTrue (h ▸ rfl)
    else .isFalse (fun hc => h (by injection hc))
  | .error _, .ok _ => .isFalse (fun hc => Except.noConfusion hc)
  | .ok _, .error _ => .isFalse (fun hc => Except.noConfusion hc)

/-- The outcome of one `call_method` invocation: the typed result and
the bytes written to the transport (`none` when the call never reached
the transport). -/
structure CallResult where
  result : Except MethodCallError StringVecResponse
  written : Option (List Char)
deriving DecidableEq

/-- `BulbConnection::call_method`, instantiated (as everywhere in the
source) at the `StringVecResponse` response type. The sequential model
takes the drawn correlation id and the bytes produced by the blocking
read as inputs; the mutex acquisition always succeeds in a sequential
execution, and transport write/read failures (surfaced as `IOError`)
are outside this model. The capability gate is checked first; only
then is the request encoded and written. -/
def call_method (bulb : Bulb) (method : Method) (args : List MethodArg)
    (id : Int) (buf : List Char) : CallResult :=
  if method ∈ bulb.support then
    match parseStringVecResponse (trimResponse buf) with
    | some r =>
      if r.id = id then ⟨.ok r, some (create_message id method args)⟩
      else ⟨.error .SynchronizationError, some (create_message id method args)⟩
    | none =>
      match parseErrorResponse (trimResponse buf) with
      | some ers =>
        ⟨.error (.ErrorResponse ers), some (create_message id method args)⟩
      | none => ⟨.error .ParseError, some (create_message id method args)⟩
  else ⟨.error .UnsupportedMethod, none⟩

/-- A concrete device descriptor used by concrete instances (fields
mirror the repository's own test fixture). -/
def testBulb (support : List Method) : Bulb :=
  { id := chars "0x000000000015243f"
    model := chars "color"
    fw_ver := chars "18"
    support := support
    power := .On
    bright := 100
    color_mode := .ColorTemperature 4000
    name := chars "my_bulb"
    ip_address := chars "192.168.1.239:55443" }

/-! ## C1: response acceptance by correlation id -/

/-- C1 (amended): a successfully decoded success-shaped response is
accepted only when its id equals the drawn correlation id — a mismatch
yields `SynchronizationError` and never a success. The id check does
not extend to error-shaped responses: a buffer that decodes only as
the error shape is surfaced as `ErrorResponse` without any comparison
of its id against the call's id. -/
theorem call_method_id_acceptance (bulb : Bulb) (method : Method)
    (args : List MethodArg) (id : Int) (buf : List Char) :
    (∀ rs, (call_method bulb method args id buf).result = .ok rs →
      rs.id = id) ∧
    (method ∈ bulb.support →
      ∀ rs, parseStringVecResponse (trimResponse buf) = some rs →
        rs.id ≠ id →
        (call_method bulb method args id buf).result =
          .error .SynchronizationError) ∧
    (method ∈ bulb.support →
      ∀ ers, parseStringVecResponse (trimResponse buf) = none →
        parseErrorResponse (trimResponse buf) = some ers →
        (call_method bulb method args id buf).result =
          .error (.ErrorResponse ers)) := by
  refine ⟨?_, ?_, ?_⟩
  · intro rs h
    unfold call_method at h
    split at h
    · split at h
      · split at h
        · rename_i r heq hid
          dsimp only at h
          injection h with h2
          rw [← h2]
          exact hid
        · rename_i r heq hid
          dsimp only at h
          exact Except.noConfusion h
      · split at h
        · dsimp only at h
          exact Except.noConfusion h
        · dsimp only at h
          exact Except.noConfusion h
    · dsimp only at h
      exact Except.noConfusion h
  · intro hm rs hp hne
    unfold call_method
    rw [if_pos hm, hp]
    simp [hne]
  · intro hm ers hp he
    unfold call_method
    rw [if_pos hm, hp, he]

/-- Counterexample to C1 as stated: with the drawn id 1 and a read
buffer holding an error-shaped response whose id is 2, the dispatcher
surfaces `ErrorResponse`, not `SynchronizationError` — the id
acceptance rule does not apply to error-shaped responses. -/
theorem call_method_errorshape_id_ignored :
    (call_method (testBulb [Method.Toggle]) Method.Toggle [] 1
        (chars "\x7b\"id\":2, \"error\":\x7b\"code\":-1, \"message\":\"err\"\x7d\x7d")).result =
      .error (.ErrorResponse ⟨2, ⟨-1, chars "err"⟩⟩) ∧
    (call_method (testBulb [Method.Toggle]) Method.Toggle [] 1
        (chars "\x7b\"id\":2, \"error\":\x7b\"code\":-1, \"message\":\"err\"\x7d\x7d")).result ≠
      .error .SynchronizationError := by
  constructor
  · decide
  · decide

/-- Witness for C1 at a concrete input: a success-shaped response with
id 2 against a call with drawn id 1 yields `SynchronizationError`. -/
theorem call_method_id_acceptance_witness :
    (call_method (testBulb [Method.Toggle]) Method.Toggle [] 1
        (chars "\x7b\"id\":2, \"result\":[\"ok\"]\x7d")).result =
      .error .SynchronizationError :=
  (call_method_id_acceptance (testBulb [Method.Toggle]) Method.Toggle [] 1
      (chars "\x7b\"id\":2, \"result\":[\"ok\"]\x7d")).2.1
    (by decide) ⟨2, [chars "ok"]⟩ (by decide) (by decide)

/-! ## C2: the capability gate precedes all transport activity -/

/-- C2: calling a method outside the capability set fails with
`UnsupportedMethod` and writes nothing to the transport (and, the
result being independent of the read buffer, reads nothing). -/
theorem unsupported_method_no_io (bulb : Bulb) (method : Method)
    (args : List MethodArg) (id : Int) (buf : List Char)
    (h : method ∉ bulb.support) :
    call_method bulb method args id buf =
      ⟨.error .UnsupportedMethod, none⟩ := by
  unfold call_method
  rw [if_neg h]

/-- Witness for C2 at a concrete input: `set_rgb` is not in the
capability set of a bulb supporting only `toggle`. -/
theorem unsupported_method_no_io_witness :
    call_method (testBulb [Method.Toggle]) Method.SetRgb [] 1 [] =
      ⟨.error .UnsupportedMethod, none⟩ :=
  unsupported_method_no_io (testBulb [Method.Toggle]) Method.SetRgb [] 1 []
    (by decide)

/-! ## C5: parameter validation (src/connection.rs) -/

/-- `MAX_BRIGHTNESS` of connection.rs. -/
def MAX_BRIGHTNESS : Nat := 100

/-- `MINIMUM_TRANSITION_DURATION` (30 ms), in nanoseconds. -/
def MINIMUM_TRANSITION_DURATION : Nat := 30000000

/-- `MINIMUM_CF_DURATION` (50 ms), in nanoseconds. -/
def MINIMUM_CF_DURATION : Nat := 50000000

/-- `CT_MIN` of connection.rs. -/
def CT_MIN : Nat := 1700

/-- `CT_MAX` of connection.rs. -/
def CT_MAX : Nat := 6500

/-- `Duration::as_millis` on a nanosecond count. -/
def durMillis (ns : Nat) : Nat := ns / 1000000

/-- `as_millis() as u32`: millisecond count truncated to 32 bits (the
cast performed by `FlowTuple::to_expression`). -/
def durMillisU32 (ns : Nat) : Nat := durMillis ns % 4294967296

/-- The `TransitionMode` enum: sudden, or smooth over a duration. -/
inductive TransitionMode where
  | Sudden
  | Smooth (d : Nat)
deriving DecidableEq

/-- `TransitionMode::to_method_args`: `sudden` uses a fixed 50 ms
duration argument; `smooth` requires at least 30 ms and a millisecond
count representable as an `i32` (`try_into().ok()` on the `u128`
millisecond count). -/
def TransitionMode.to_method_args :
    TransitionMode → Except MethodCallError (List MethodArg)
  | .Sudden => .ok [.String (chars "sudden"), .Int 50]
  | .Smooth d =>
    if d < MINIMUM_TRANSITION_DURATION then .error .BadRequest
    else if 2147483647 < durMillis d then .error .BadRequest
    else .ok [.String (chars "smooth"), .Int (durMillis d)]

/-- The `CfAction` enum of `start_cf`. -/
inductive CfAction where
  | Recover
  | Stay
  | TurnOff
deriving DecidableEq

/-- The explicit discriminants of `CfAction` (`action as i32`). -/
def CfAction.val : CfAction → Nat
  | .Recover => 0
  | .Stay => 1
  | .TurnOff => 2

/-- `ColorFlowTupleMode`: an RGB color and a brightness. -/
structure ColorFlowTupleMode where
  color : RGB
  brightness : Nat
deriving DecidableEq

/-- `CtFlowTupleMode`: a color temperature and a brightness. -/
structure CtFlowTupleMode where
  ct : Nat
  brightness : Nat
deriving DecidableEq

/-- The `FlowTupleMode` enum. -/
inductive FlowTupleMode where
  | Color (c : ColorFlowTupleMode)
  | Ct (c : CtFlowTupleMode)
  | Sleep
deriving DecidableEq

/-- A `FlowTuple`: one color-flow segment, with its duration in
nanoseconds. -/
structure FlowTuple where
  duration : Nat
  mode : FlowTupleMode
deriving DecidableEq

/-- `FlowTuple::to_expression`: rejects a segment shorter than 50 ms
or brighter than 100, and renders the four numbers of the wire
expression (mode discriminant 1 for color, 2 for temperature, 7 for
sleep). -/
def FlowTuple.to_expression (t : FlowTuple) :
    Except MethodCallError (List Nat) :=
  if t.duration < MINIMUM_CF_DURATION then .error .BadRequest
  else
    match t.mode with
    | .Color c =>
      if c.brightness > MAX_BRIGHTNESS then .error .BadRequest
      else .ok [durMillisU32 t.duration, 1, u32_from_rgb c.color, c.brightness]
    | .Ct c =>
      if c.brightness > MAX_BRIGHTNESS then .error .BadRequest
      else .ok [durMillisU32 t.duration, 2, c.ct, c.brightness]
    | .Sleep => .ok [durMillisU32 t.duration, 7, 0, 0]

/-- The accumulation loop of `start_cf` over its flow tuples: the
first failing tuple aborts the call (the `?` operator), otherwise the
four numbers of every tuple are concatenated in order. -/
def flowExprs : List FlowTuple → Except MethodCallError (List Nat)
  | [] => .ok []
  | t :: ts =>
    match t.to_expression with
    | .error e => .error e
    | .ok e =>
      match flowExprs ts with
      | .error e2 => .error e2
      | .ok rest => .ok (e ++ rest)

/-- `BulbConnection::set_ct_abx`: range-check the color temperature,
then build the transition arguments, then dispatch. -/
def set_ct_abx (bulb : Bulb) (ct_value : Nat) (mode : TransitionMode)
    (id : Int) (buf : List Char) : CallResult :=
  if ct_value > CT_MAX ∨ ct_value < CT_MIN then ⟨.error .BadRequest, none⟩
  else
    match mode.to_method_args with
    | .error e => ⟨.error e, none⟩
    | .ok args =>
      call_method bulb .SetCtAbx (.Int (ct_value : Int) :: args) id buf

/-- `BulbConnection::set_bright`: range-check the brightness, then
build the transition arguments, then dispatch. -/
def set_bright (bulb : Bulb) (brightness : Nat) (mode : TransitionMode)
    (id : Int) (buf : List Char) : CallResult :=
  if brightness > MAX_BRIGHTNESS then ⟨.error .BadRequest, none⟩
  else
    match mode.to_method_args with
    | .error e => ⟨.error e, none⟩
    | .ok args =>
      call_method bulb .SetBright (.Int (brightness : Int) :: args) id buf

/-- `BulbConnection::start_cf`: render every flow tuple (aborting on
the first invalid one), then dispatch with the count, the action
discriminant and the comma-joined expression string. -/
def start_cf (bulb : Bulb) (count : Nat) (action : CfAction)
    (flow : List FlowTuple) (id : Int) (buf : List Char) : CallResult :=
  match flowExprs flow with
  | .error e => ⟨.error e, none⟩
  | .ok nums =>
    call_method bulb .StartCf
      [.Int (count : Int), .Int (action.val : Int),
       .String (joinList [','] (nums.map natToStr))] id buf

lemma to_expression_error_eq (t : FlowTuple) (e : MethodCallError)
    (h : t.to_expression = .error e) : e = .BadRequest := by
  unfold FlowTuple.to_expression at h
  split at h
  · injection h with h2
    exact h2.symm
  · split at h
    · split at h
      · injection h with h2
        exact h2.symm
      · exact Except.noConfusion h
    · split at h
      · injection h with h2
        exact h2.symm
      · exact Except.noConfusion h
    · exact Except.noConfusion h

lemma flowExprs_badRequest (flow : List FlowTuple)
    (h : ∃ t ∈ flow, t.duration < MINIMUM_CF_DURATION) :
    flowExprs flow = .error .BadRequest := by
  induction flow with
  | nil => simp at h
  | cons t ts ih =>
    rcases h with ⟨u, hu, hd⟩
    rcases List.mem_cons.mp hu with rfl | hmem
    · unfold flowExprs
      rw [show u.to_expression = .error .BadRequest from by
        unfold FlowTuple.to_expression; rw [if_pos hd]]
    · unfold flowExprs
      cases he : t.to_expression with
      | error e => rw [to_expression_error_eq t e he]
      | ok v => rw [ih ⟨u, hmem, hd⟩]

/-- C5: parameter validation failures yield `BadRequest` before any
encoding or transport write: a color temperature outside 1700–6500, a
brightness above 100, a smooth transition shorter than 30 ms, and a
color-flow segment shorter than 50 ms each abort the call with
`BadRequest` and nothing written. -/
theorem param_validation_before_io :
    (∀ bulb ct mode id buf, (ct > CT_MAX ∨ ct < CT_MIN) →
      set_ct_abx bulb ct mode id buf = ⟨.error .BadRequest, none⟩) ∧
    (∀ bulb b mode id buf, b > MAX_BRIGHTNESS →
      set_bright bulb b mode id buf = ⟨.error .BadRequest, none⟩) ∧
    (∀ bulb b ct d id buf, d < MINIMUM_TRANSITION_DURATION →
      set_bright bulb b (.Smooth d) id buf = ⟨.error .BadRequest, none⟩ ∧
      set_ct_abx bulb ct (.Smooth d) id buf = ⟨.error .BadRequest, none⟩) ∧
    (∀ bulb count action flow id buf,
      (∃ t ∈ flow, t.duration < MINIMUM_CF_DURATION) →
      start_cf bulb count action flow id buf =
        ⟨.error .BadRequest, none⟩) := by
  have hsmooth : ∀ d, d < MINIMUM_TRANSITION_DURATION →
      TransitionMode.to_method_args (.Smooth d) = .error .BadRequest := by
    intro d hd
    simp only [TransitionMode.to_method_args]
    rw [if_pos hd]
  refine ⟨?_, ?_, ?_, ?_⟩
  · intro bulb ct mode id buf h
    unfold set_ct_abx
    rw [if_pos h]
  · intro bulb b mode id buf h
    unfold set_bright
    rw [if_pos h]
  · intro bulb b ct d id buf hd
    constructor
    · unfold set_bright
      by_cases hb : b > MAX_BRIGHTNESS
      · rw [if_pos hb]
      · rw [if_neg hb, hsmooth d hd]
    · unfold set_ct_abx
      by_cases hct : ct > CT_MAX ∨ ct < CT_MIN
      · rw [if_pos hct]
      · rw [if_neg hct, hsmooth d hd]
  · intro bulb count action flow id buf h
    unfold start_cf
    rw [flowExprs_badRequest flow h]

/-- Witness for C5 at concrete inputs: color temperature 100 (the
spec's own scenario), brightness 101, a 1 ms smooth transition, and a
1 ms flow segment. -/
theorem param_validation_before_io_witness :
    set_ct_abx (testBulb [Method.SetCtAbx]) 100 .Sudden 1 [] =
      ⟨.error .BadRequest, none⟩ ∧
    set_bright (testBulb [Method.SetBright]) 101 .Sudden 1 [] =
      ⟨.error .BadRequest, none⟩ ∧
    set_bright (testBulb [Method.SetBright]) 50 (.Smooth 1000000) 1 [] =
      ⟨.error .BadRequest, none⟩ ∧
    start_cf (testBulb [Method.StartCf]) 4 .TurnOff
      [⟨1000000, .Sleep⟩] 1 [] = ⟨.error .BadRequest, none⟩ :=
  ⟨param_validation_before_io.1 _ 100 .Sudden 1 [] (Or.inr (by norm_num [CT_MIN])),
   param_validation_before_io.2.1 _ 101 .Sudden 1 [] (by norm_num [MAX_BRIGHTNESS]),
   (param_validation_before_io.2.2.1 _ 50 0 1000000 1 []
     (by norm_num [MINIMUM_TRANSITION_DURATION])).1,
   param_validation_before_io.2.2.2 _ 4 .TurnOff [⟨1000000, .Sleep⟩] 1 []
     ⟨⟨1000000, .Sleep⟩, List.mem_singleton.mpr rfl,
       by norm_num [MINIMUM_CF_DURATION]⟩⟩

/-! ## src/search.rs: the discovery engine -/

/-- The `BulbSearcher` enum: the two termination policies of the
discovery loop (durations in nanoseconds). -/
inductive BulbSearcher where
  | UntilDuration (d : Nat)
  | UntilBulbCount (c : Nat)
deriving DecidableEq

/-- The deduplicating insertion of `search_with_socket`: a parsed bulb
is appended only when no already-found bulb has the same id. -/
def insertBulb (found : List Bulb) (b : Bulb) : List Bulb :=
  if found.any (fun x => x.id == b.id) then found else found ++ [b]

/-- One loop iteration's effect on the found collection: a received
datagram that parses into a bulb is inserted (deduplicating by id); a
failed receive or unparseable datagram leaves the collection
unchanged. -/
def stepFound (found : List Bulb) (r : Option Bulb) : List Bulb :=
  match r with
  | some b => insertBulb found b
  | none => found

/-- The termination check performed at the end of every loop
iteration of `search_with_socket`: a duration policy compares the
elapsed time against the limit, a count policy compares the size of
the found collection against the requested count. -/
def policyDone : BulbSearcher → List Bulb → Nat → Bool
  | .UntilDuration limit, _, elapsed => decide (elapsed > limit)
  | .UntilBulbCount c, found, _ => found.length == c

/-- One receive event of the discovery loop: the parse result of the
received datagram (`none` for a failed receive or an unrecognized
announcement) and the elapsed time observed by the subsequent
termination check. -/
structure RecvEvent where
  recv : Option Bulb
  elapsed : Nat
deriving DecidableEq

/-- The receive loop of `search_with_socket` over a finite trace of
receive events: each iteration ingests one event and then evaluates
the termination policy, returning the found collection once it is
satisfied (`none` means the loop is still running when the trace
ends). -/
def searchLoop (p : BulbSearcher) : List RecvEvent → List Bulb → Option (List Bulb)
  | [], _ => none
  | e :: es, found =>
    if policyDone p (stepFound found e.recv) e.elapsed then
      some (stepFound found e.recv)
    else searchLoop p es (stepFound found e.recv)

/-- The first found bulb carrying a given id. -/
def firstWithId (l : List Bulb) (i : List Char) : Option Bulb :=
  l.find? (fun b => b.id == i)

lemma insertBulb_first_some (acc : List Bulb) (b : Bulb) (i : List Char)
    (x : Bulb) (h : firstWithId acc i = some x) :
    firstWithId (insertBulb acc b) i = some x := by
  unfold insertBulb
  split
  · exact h
  · unfold firstWithId at h ⊢
    rw [List.find?_append, h]
    rfl

lemma insertBulb_first_none (acc : List Bulb) (b : Bulb) (i : List Char)
    (h : firstWithId acc i = none) :
    firstWithId (insertBulb acc b) i = firstWithId [b] i := by
  unfold insertBulb
  split
  · rename_i hany
    unfold firstWithId
    simp only [List.find?_singleton]
    split
    · rename_i hb
      exfalso
      rw [List.any_eq_true] at hany
      rcases hany with ⟨x, hx, hxb⟩
      rw [beq_iff_eq] at hb hxb
      unfold firstWithId at h
      rw [List.find?_eq_none] at h
      exact h x hx (by rw [beq_iff_eq, hxb, hb])
    · exact h
  · unfold firstWithId at h ⊢
    rw [List.find?_append, h]
    simp

lemma foldl_insertBulb_first_some (bs : List Bulb) :
    ∀ (acc : List Bulb) (i : List Char) (x : Bulb),
      firstWithId acc i = some x →
      firstWithId (bs.foldl insertBulb acc) i = some x := by
  induction bs with
  | nil => intro acc i x h; simpa using h
  | cons b ts ih =>
    intro acc i x h
    rw [List.foldl_cons]
    exact ih (insertBulb acc b) i x (insertBulb_first_some acc b i x h)

lemma firstWithId_singleton (b : Bulb) (i : List Char) :
    firstWithId [b] i = if b.id == i then some b else none := by
  unfold firstWithId
  rw [List.find?_singleton]

lemma firstWithId_cons (b : Bulb) (ts : List Bulb) (i : List Char) :
    firstWithId (b :: ts) i =
      if b.id == i then some b else firstWithId ts i := by
  unfold firstWithId
  rw [List.find?_cons]
  cases hpb : (b.id == i) <;> simp

lemma foldl_insertBulb_first_none (bs : List Bulb) :
    ∀ (acc : List Bulb) (i : List Char),
      firstWithId acc i = none →
      firstWithId (bs.foldl insertBulb acc) i = firstWithId bs i := by
  induction bs with
  | nil => intro acc i h; simpa using h
  | cons b ts ih =>
    intro acc i h
    rw [List.foldl_cons, firstWithId_cons]
    have hins := insertBulb_first_none acc b i h
    cases hpb : (b.id == i) with
    | true =>
      have hsome : firstWithId (insertBulb acc b) i = some b := by
        rw [hins, firstWithId_singleton, if_pos hpb]
      rw [foldl_insertBulb_first_some ts (insertBulb acc b) i b hsome]
      simp
    | false =>
      have hnone : firstWithId (insertBulb acc b) i = none := by
        rw [hins, firstWithId_singleton, if_neg (by simp [hpb])]
      rw [ih (insertBulb acc b) i hnone]
      simp

lemma insertBulb_nodup (acc : List Bulb) (b : Bulb)
    (h : (acc.map Bulb.id).Nodup) :
    ((insertBulb acc b).map Bulb.id).Nodup := by
  unfold insertBulb
  split
  · exact h
  · rename_i hany
    rw [List.map_append]
    rw [List.nodup_append]
    refine ⟨h, List.nodup_singleton _, ?_⟩
    intro y hy
    simp only [List.map_cons, List.map_nil, List.mem_singleton]
    intro hyb
    rw [List.mem_map] at hy
    rcases hy with ⟨x, hx, hxy⟩
    rw [List.any_eq_true] at hany
    exact hany ⟨x, hx, by rw [beq_iff_eq, hxy, hyb]⟩

lemma stepFound_nodup (acc : List Bulb) (r : Option Bulb)
    (h : (acc.map Bulb.id).Nodup) :
    ((stepFound acc r).map Bulb.id).Nodup := by
  cases r with
  | none => exact h
  | some b => exact insertBulb_nodup acc b h

lemma foldl_insertBulb_nodup (bs : List Bulb) :
    ∀ acc : List Bulb, (acc.map Bulb.id).Nodup →
      ((bs.foldl insertBulb acc).map Bulb.id).Nodup := by
  induction bs with
  | nil => intro acc h; simpa using h
  | cons b ts ih =>
    intro acc h
    rw [List.foldl_cons]
    exact ih (insertBulb acc b) (insertBulb_nodup acc b h)

/-- C6: over any stream of parsed announcements, the deduplicated
collection built by the discovery loop holds at most one descriptor
per id, and the entry stored for an id is exactly the first
announcement of that id in the stream — later announcements with the
same id are dropped, never merged. -/
theorem discovery_dedup_first_wins (bs : List Bulb) :
    (((bs.foldl insertBulb []).map Bulb.id).Nodup) ∧
    (∀ i, firstWithId (bs.foldl insertBulb []) i = firstWithId bs i) :=
  ⟨foldl_insertBulb_nodup bs [] (by simp),
   fun i => foldl_insertBulb_first_none bs [] i rfl⟩

/-! ## C7: the minimum-count termination policy -/

lemma searchLoop_count (n : Nat) (events : List RecvEvent) :
    ∀ (acc found : List Bulb), (acc.map Bulb.id).Nodup →
      searchLoop (.UntilBulbCount n) events acc = some found →
      found.length = n ∧ (found.map Bulb.id).Nodup := by
  induction events with
  | nil => intro acc found _ hs; simp [searchLoop] at hs
  | cons e es ih =>
    intro acc found hnd hs
    unfold searchLoop at hs
    split at hs
    · rename_i hdone
      have hfound : found = stepFound acc e.recv := by
        simpa using hs.symm
      subst hfound
      unfold policyDone at hdone
      refine ⟨by simpa using hdone, stepFound_nodup acc e.recv hnd⟩
    · exact ih (stepFound acc e.recv) found (stepFound_nodup acc e.recv hnd) hs

/-- C7: whenever a discovery run under the minimum-count policy
`UntilBulbCount n` returns, the returned deduplicated collection holds
exactly `n` descriptors with pairwise distinct ids. -/
theorem untilBulbCount_returns_exactly_n (n : Nat)
    (events : List RecvEvent) (found : List Bulb)
    (h : searchLoop (.UntilBulbCount n) events [] = some found) :
    found.length = n ∧ (found.map Bulb.id).Nodup :=
  searchLoop_count n events [] found (by simp) h

/-- Witness for C7 at a concrete input: one announcement and the
policy `UntilBulbCount 1`. -/
theorem untilBulbCount_returns_exactly_n_witness :
    [testBulb [Method.Toggle]].length = 1 ∧
    (([testBulb [Method.Toggle]].map Bulb.id)).Nodup :=
  untilBulbCount_returns_exactly_n 1
    [⟨some (testBulb [Method.Toggle]), 0⟩]
    [testBulb [Method.Toggle]] (by decide)

/-! ## C8: no TargetId termination policy exists -/

/-- Counterexample to C8: no termination policy of the discovery
engine decides "a device with id `target` has been found" — a
duration policy ignores the found collection (it never fires at
elapsed time zero even when the target is present), and a count
policy fires on any `c` distinct bulbs whether or not the target is
among them. The `BulbSearcher` enum simply has no `TargetId`
variant. -/
theorem no_targetId_policy :
    ¬ ∃ s : BulbSearcher, ∀ (found : List Bulb) (elapsed : Nat),
        policyDone s found elapsed = true ↔
          ∃ b ∈ found, b.id = chars "target" := by
  rintro ⟨s, h⟩
  cases s with
  | UntilDuration d =>
    have h1 := (h [{ testBulb [] with id := chars "target" }] 0).mpr
      ⟨{ testBulb [] with id := chars "target" },
        List.mem_singleton.mpr rfl, rfl⟩
    simp only [policyDone, decide_eq_true_eq] at h1
    omega
  | UntilBulbCount c =>
    have h1 := (h (List.replicate c (testBulb [])) 0).mp
      (by simp [policyDone])
    rcases h1 with ⟨b, hb, hid⟩
    rw [List.eq_of_mem_replicate hb] at hid
    exact absurd hid (by decide)

/-- C8 (amended): the discovery engine offers exactly the two
termination policies `UntilDuration` and `UntilBulbCount`; there is no
TargetId policy, so a discovery run cannot be terminated by the
appearance of a specific id. -/
theorem searcher_policies_exhaustive (s : BulbSearcher) :
    (∃ d, s = BulbSearcher.UntilDuration d) ∨
    (∃ c, s = BulbSearcher.UntilBulbCount c) := by
  cases s with
  | UntilDuration d => exact Or.inl ⟨d, rfl⟩
  | UntilBulbCount c => exact Or.inr ⟨c, rfl⟩

/-! ## src/bulb.rs: announcement parsing (C9) -/

/-- Splitting on a separator substring, with fuel (the Rust
`str::split(sep)`): non-overlapping occurrences, scanned left to
right; leading, trailing and adjacent separators produce empty
pieces. -/
def splitSeqGo (sep : List Char) : Nat → List Char → List Char → List (List Char)
  | 0, s, acc => [acc.reverse ++ s]
  | _ + 1, [], acc => [acc.reverse]
  | n + 1, c :: rest, acc =>
    if sep.isPrefixOf (c :: rest) then
      acc.reverse :: splitSeqGo sep n ((c :: rest).drop sep.length) []
    else splitSeqGo sep n rest (c :: acc)

/-- The Rust `str::split` on a substring separator. -/
def splitSeq (sep s : List Char) : List (List Char) :=
  splitSeqGo sep (s.length + 1) s []

/-- The header map built by `parse_to_hashmap`: a `HashMap<String,
String>`, embedded as an insertion list whose lookup returns the most
recent insertion for a key. -/
abbrev HMap := List (List Char × List Char)

/-- `HashMap::get`: the most recently inserted value for the key. -/
def mapGet (m : HMap) (k : List Char) : Option (List Char) :=
  (m.find? (fun p => p.1 == k)).map (fun p => p.2)

/-- `parse_to_hashmap`: split the announcement on CRLF; each line is
split on `": "`, the first piece is the key and the remaining pieces
are concatenated (without separator, as the source's `collect` into a
`String` does) to form the value; every line is inserted. -/
def parse_to_hashmap (s : List Char) : HMap :=
  (splitSeq (chars "\r\n") s).foldl
    (fun m line =>
      ((splitSeq (chars ": ") line).headD [],
       ((splitSeq (chars ": ") line).drop 1).join) :: m) []

/-- The Rust `str::parse::<uN>` digit scan: an optional leading plus
sign followed by at least one digit and nothing else. -/
def parseNatCore (s : List Char) : Option Nat :=
  match parseNatTok s with
  | some (n, []) => some n
  | _ => none

/-- The Rust `str::parse` for unsigned integers, before the range
check. -/
def parseNatAll (s : List Char) : Option Nat :=
  match s with
  | [] => none
  | c :: rest => if c = '+' then parseNatCore rest else parseNatCore (c :: rest)

/-- `str::parse::<u8>`. -/
def parseU8 (s : List Char) : Option Nat :=
  (parseNatAll s).bind fun n => if n ≤ 255 then some n else none

/-- `str::parse::<u16>`. -/
def parseU16 (s : List Char) : Option Nat :=
  (parseNatAll s).bind fun n => if n ≤ 65535 then some n else none

/-- `str::parse::<u32>`. -/
def parseU32 (s : List Char) : Option Nat :=
  (parseNatAll s).bind fun n => if n ≤ 4294967295 then some n else none

/-- `LightMode::parse` of lightmode.rs: dispatch on the `color_mode`
field (1 → RGB, 2 → color temperature, 3 → HSV), reading the
mode-specific fields (the `RGB::new` constructor called by the source
is the `From<u32>` conversion embedded as `rgb_from_u32`). -/
def LightMode.parse (m : HMap) : Option LightMode :=
  (mapGet m (chars "color_mode")).bind fun cm =>
    (parseU8 cm).bind fun cmv =>
      if cmv = 1 then
        (mapGet m (chars "rgb")).bind fun r =>
          (parseU32 r).map fun rv => LightMode.Color (rgb_from_u32 rv)
      else if cmv = 2 then
        (mapGet m (chars "ct")).bind fun c =>
          (parseU32 c).map fun cv => LightMode.ColorTemperature cv
      else if cmv = 3 then
        (mapGet m (chars "hue")).bind fun hu =>
          (mapGet m (chars "sat")).bind fun sa =>
            (parseU16 hu).bind fun huv =>
              (parseU8 sa).map fun sav => LightMode.Hsv ⟨huv, sav⟩
      else none

/-- `Bulb::parse` applied to the already-built header map: every
required field must be present and well-formed (the source computes
all nine options and pattern-matches them together; the sequential
binds here require exactly the same nine options to be `some`). The
address is `Location` split on `"//"`, taking the piece at index 1
(`split("//").nth(1)`). -/
def Bulb.parseMap (m : HMap) : Option Bulb :=
  (mapGet m (chars "model")).bind fun model =>
  (mapGet m (chars "id")).bind fun id =>
  ((mapGet m (chars "support")).map
      (fun s => (splitSeq [' '] s).filterMap Method.parse)).bind fun support =>
  ((mapGet m (chars "power")).bind Power.parse).bind fun power =>
  ((mapGet m (chars "bright")).bind parseU8).bind fun brightness =>
  (LightMode.parse m).bind fun light_mode =>
  (mapGet m (chars "fw_ver")).bind fun fw_ver =>
  (mapGet m (chars "name")).bind fun name =>
  ((mapGet m (chars "Location")).bind
      (fun s => (splitSeq (chars "//") s).get? 1)).bind fun ip =>
  some { bright := brightness, color_mode := light_mode, fw_ver := fw_ver,
         id := id, model := model, name := name, power := power,
         support := support, ip_address := ip }

/-- `Bulb::parse`: build the header map, then parse the descriptor. -/
def Bulb.parse (search_response : List Char) : Option Bulb :=
  Bulb.parseMap (parse_to_hashmap search_response)

/-- The header keys that must be present for `Bulb::parse` to produce
a descriptor. -/
def requiredKeys : List (List Char) :=
  [chars "id", chars "model", chars "fw_ver", chars "support",
   chars "power", chars "bright", chars "color_mode", chars "name",
   chars "Location"]

lemma lightMode_parse_colorMode (m : HMap) (lm : LightMode)
    (h : LightMode.parse m = some lm) :
    (mapGet m (chars "color_mode")).isSome := by
  unfold LightMode.parse at h
  rw [Option.bind_eq_some] at h
  rcases h with ⟨cm, hcm, _⟩
  simp [hcm]

lemma parseMap_some_spec (m : HMap) (b : Bulb)
    (h : Bulb.parseMap m = some b) :
    (mapGet m (chars "id")).isSome ∧ (mapGet m (chars "model")).isSome ∧
    (mapGet m (chars "fw_ver")).isSome ∧
    (mapGet m (chars "support")).isSome ∧
    (mapGet m (chars "power")).isSome ∧
    (mapGet m (chars "bright")).isSome ∧
    (mapGet m (chars "color_mode")).isSome ∧
    (mapGet m (chars "name")).isSome ∧
    ∃ loc, mapGet m (chars "Location") = some loc ∧
      (splitSeq (chars "//") loc).get? 1 = some b.ip_address := by
  unfold Bulb.parseMap at h
  simp only [Option.bind_eq_some, Option.map_eq_some'] at h
  obtain ⟨model, hmodel, id, hid, support, ⟨sval, hsval, _⟩, power,
    ⟨pval, hpval, _⟩, bright, ⟨bval, hbval, _⟩, lm, hlm, fw, hfw,
    name, hname, ip, ⟨loc, hloc, hip⟩, hb⟩ := h
  have hbip : b.ip_address = ip := by
    rw [← Option.some_inj.mp hb]
  refine ⟨by simp [hid], by simp [hmodel], by simp [hfw], by simp [hsval],
    by simp [hpval], by simp [hbval], lightMode_parse_colorMode m lm hlm,
    by simp [hname], ⟨loc, hloc, by rw [hbip]; exact hip⟩⟩

/-- C9 (amended): for every announcement header map, `Bulb::parse`
produces no descriptor whenever any required key is missing (in
particular a missing `Location` yields no descriptor), and when it
produces a descriptor the stored address is the segment of the
`Location` value between the first `"//"` and the next `"//"` (the
piece at index 1 of splitting the value on `"//"`). -/
theorem parse_requires_keys_and_address :
    (∀ (m : HMap) (k : List Char), k ∈ requiredKeys → mapGet m k = none →
      Bulb.parseMap m = none) ∧
    (∀ (m : HMap) (b : Bulb), Bulb.parseMap m = some b →
      ∃ loc, mapGet m (chars "Location") = some loc ∧
        (splitSeq (chars "//") loc).get? 1 = some b.ip_address) := by
  constructor
  · intro m k hk hnone
    cases hp : Bulb.parseMap m with
    | none => rfl
    | some b =>
      exfalso
      have hs := parseMap_some_spec m b hp
      simp only [requiredKeys, List.mem_cons, List.not_mem_nil, or_false] at hk
      rcases hk with rfl | rfl | rfl | rfl | rfl | rfl | rfl | rfl | rfl
      · rw [hnone] at hs; simp at hs
      · rw [hnone] at hs; simp at hs
      · rw [hnone] at hs; simp at hs
      · rw [hnone] at hs; simp at hs
      · rw [hnone] at hs; simp at hs
      · rw [hnone] at hs; simp at hs
      · rw [hnone] at hs; simp at hs
      · rw [hnone] at hs; simp at hs
      · rcases hs.2.2.2.2.2.2.2.2 with ⟨loc, hloc, _⟩
        rw [hnone] at hloc
        exact Option.noConfusion hloc
  · intro m b h
    exact (parseMap_some_spec m b h).2.2.2.2.2.2.2.2

/-- A complete announcement header map whose `Location` value contains
a second `"//"`. -/
def cexMap : HMap :=
  [(chars "id", chars "0x1"), (chars "model", chars "color"),
   (chars "fw_ver", chars "18"), (chars "support", chars "toggle"),
   (chars "power", chars "on"), (chars "bright", chars "100"),
   (chars "color_mode", chars "2"), (chars "ct", chars "4000"),
   (chars "name", chars "b"),
   (chars "Location", chars "yeelight://h//x")]

/-- Counterexample to C9 as stated: on a valid announcement whose
`Location` value is `yeelight://h//x`, the stored address is `h` — the
segment up to the second `"//"` — and not `h//x`, the portion of the
value after the first `"//"`. -/
theorem location_not_suffix_after_first :
    (Bulb.parseMap cexMap).map (fun b => b.ip_address) = some (chars "h") ∧
    chars "h" ≠ chars "h//x" := by
  constructor
  · decide
  · decide

/-- The same announcement map with the `Location` header removed. -/
def cexMapNoLoc : HMap :=
  [(chars "id", chars "0x1"), (chars "model", chars "color"),
   (chars "fw_ver", chars "18"), (chars "support", chars "toggle"),
   (chars "power", chars "on"), (chars "bright", chars "100"),
   (chars "color_mode", chars "2"), (chars "ct", chars "4000"),
   (chars "name", chars "b")]

/-- Witness for C9 at a concrete input: an announcement missing the
`Location` header yields no descriptor. -/
theorem parse_requires_keys_witness :
    Bulb.parseMap cexMapNoLoc = none :=
  parse_requires_keys_and_address.1 cexMapNoLoc (chars "Location")
    (by decide) (by decide)

end Libyee
